import Mathlib

/-!
Verification of the training/validation control core of `trainer.py`
(class `Trainer`): epoch loops, best-model selection, loss bookkeeping,
checkpoint save/load. The generator model, the optimizer, the data
loaders, the grid renderer and the `wandb` sink are external
collaborators; they are modelled as an abstract environment `Env` over
abstract parameter/tensor/image types, and scalar losses are exact
rationals. Python exceptions (a raising `wandb.log`, `ZeroDivisionError`,
`KeyError` on a missing checkpoint field) are modelled with `Except`,
the error value carrying the in-place-mutated trainer state at the point
of the raise.
-/

namespace FontGen

/-- A mini-batch as returned by `loader.get()`: the triple
`(content_letters, style_letters, style_labels)` of tensors, over an
abstract tensor type `T`. -/
structure Batch (T : Type) where
  content : T
  style : T
  label : T

/-- A `FontDataLoader`: it reports a fixed batch count (`len(loader)`),
its successive `get()` calls yield the stream of batches, and
`get(batch_size=25)` (called once, at `Trainer.__init__`) yields the
fixed held-out evaluation batch. -/
structure Loader (T : Type) where
  count : Nat
  stream : Nat → Batch T
  draw25 : Batch T

/-- Gradient/optimizer operations performed by the training loop body,
recorded as a trace so that "exactly one optimizer update per batch" is
a statement about the code. -/
inductive Event where
  | zeroGrad
  | backward
  | optStep
deriving DecidableEq

/-- The four phases of one epoch of `Trainer.run`, in execution order. -/
inductive Phase where
  | ptrain
  | pvalid
  | psample
  | pcheckpoint
deriving DecidableEq

/-- Exceptions that can escape a train/valid epoch: a raising `wandb.log`
call (there is no `try/except` around it in the source), and the
`ZeroDivisionError` from `avg_loss /= len(loader)` when the loader is
empty. -/
inductive Err where
  | sink
  | divByZero
deriving DecidableEq

/-- Exceptions that can escape `Trainer.load_trainer`: a `KeyError` for a
missing checkpoint field, or a raising `wandb` call during history
replay. -/
inductive LoadErr where
  | keyError (field : String)
  | sink
deriving DecidableEq

/-- The value held by `self.best_params`. In the source it is either
`None`, the result of `self.generator.state_dict()` — a dict of tensors
that share storage with the live generator parameters, which
`Adam.step()` and `load_state_dict` mutate in place — or a dict freshly
produced by `pickle.load`, whose tensors own their storage and are
detached from the live model. -/
inductive BestParams (P : Type) where
  | null
  | liveRef
  | detached (p : P)
deriving DecidableEq

/-- The parameter values currently readable through `best_params`, given
the live generator parameters `gen` (the aliased `state_dict` reads the
live values; a detached dict reads its own copy). -/
def BestParams.deref {P : Type} (b : BestParams P) (gen : P) : Option P :=
  match b with
  | .null => none
  | .liveRef => some gen
  | .detached p => some p

/-- The external collaborators of the core, over abstract types:
`P` generator parameters, `O` Adam optimizer state, `T` tensors,
`I` rendered images. `forward` is `generator(content, labels)`; `mse`
is `F.mse_loss(pred, target)` as a scalar; `optStep` is the combined
effect of `zero_grad(); loss.backward(); optim.step()` on the optimizer
state and the (in-place updated) parameters; `toImage` is
`make_grid` + `ToPILImage`; the four log functions are the `wandb`
calls, each of which may raise. -/
structure Env (P O T I : Type) where
  forward : P → T → T → T
  mse : T → T → Rat
  adamInit : P → O
  optStep : O → P → Batch T → O × P
  toImage : T → I
  trainLog : Rat → Except Unit Unit
  validLog : Rat → Except Unit Unit
  imageLog : I → Except Unit Unit
  configUpdate : Rat → Except Unit Unit

/-- The mutable state of a `Trainer` object (fields of `Trainer.__init__`
that the control core reads or writes). `trainPos`/`validPos` are the
positions of the two loaders' `get()` cursors. -/
structure Trainer (P O T I : Type) where
  genParams : P
  optState : O
  mse_penalty : Rat
  best_loss : Rat
  best_params : BestParams P
  test_content_letters : T
  test_style_letters : T
  test_style_labels : T
  train_loss : List Rat
  valid_loss : List Rat
  test_images : List I
  could_wandb : Bool
  trainPos : Nat
  validPos : Nat
deriving DecidableEq

/-- `Trainer.__init__`: best loss starts at the sentinel `1e5`,
`best_params` at `None`, the fixed evaluation batch is drawn once from
the validation loader via `get(batch_size=25)`, histories start empty,
and a fresh Adam optimizer is bound to the generator parameters. -/
def Trainer.init {P O T I : Type} (env : Env P O T I) (p0 : P)
    (mse_penalty : Rat) (validloader : Loader T) (could_wandb : Bool) :
    Trainer P O T I :=
  { genParams := p0
    optState := env.adamInit p0
    mse_penalty := mse_penalty
    best_loss := 100000
    best_params := BestParams.null
    test_content_letters := validloader.draw25.content
    test_style_letters := validloader.draw25.style
    test_style_labels := validloader.draw25.label
    train_loss := []
    valid_loss := []
    test_images := []
    could_wandb := could_wandb
    trainPos := 0
    validPos := 0 }

/-- The loop body of `Trainer.train`, iterated `len(trainloader)` times.
Per batch: fetch the batch, forward pass, `loss = mse_penalty * mse`,
accumulate into `avg_loss`, `zero_grad(); loss.backward(); optim.step()`,
`wandb.log` when enabled (no `try`: an error propagates, carrying the
state mutated so far), then append the loss to `train_loss`. -/
def trainLoop {P O T I : Type} (env : Env P O T I) (tl : Loader T) :
    Nat → Trainer P O T I → Rat → List Event →
    Except (Err × Trainer P O T I) (Trainer P O T I × Rat × List Event)
  | 0, s, acc, tr => Except.ok (s, acc, tr)
  | n + 1, s, acc, tr =>
    let b := tl.stream s.trainPos
    let s0 := { s with trainPos := s.trainPos + 1 }
    let loss := s0.mse_penalty * env.mse (env.forward s0.genParams b.content b.label) b.style
    let acc' := acc + loss
    let op := env.optStep s0.optState s0.genParams b
    let s1 := { s0 with optState := op.1, genParams := op.2 }
    match (if s1.could_wandb then env.trainLog loss else Except.ok ()) with
    | Except.error _ => Except.error (Err.sink, s1)
    | Except.ok _ =>
      trainLoop env tl n { s1 with train_loss := s1.train_loss ++ [loss] } acc'
        (tr ++ [Event.zeroGrad, Event.backward, Event.optStep])

/-- `Trainer.train`: one full training epoch. Runs the batch loop
`len(trainloader)` times, then computes `avg_loss /= len(trainloader)`
— which raises `ZeroDivisionError` when the count is zero — and returns
the mean. -/
def train {P O T I : Type} (env : Env P O T I) (tl : Loader T)
    (s : Trainer P O T I) :
    Except (Err × Trainer P O T I) (Trainer P O T I × Rat × List Event) :=
  match trainLoop env tl tl.count s 0 [] with
  | Except.error e => Except.error e
  | Except.ok (s', acc, tr) =>
    if tl.count = 0 then Except.error (Err.divByZero, s')
    else Except.ok (s', acc / (tl.count : Rat), tr)

/-- The loop body of `Trainer.valid`, iterated `len(validloader)` times.
Same as the training body but with no gradient computation and no
optimizer update (`@torch.no_grad`, `eval()`); losses go to
`valid_loss`. -/
def validLoop {P O T I : Type} (env : Env P O T I) (vl : Loader T) :
    Nat → Trainer P O T I → Rat →
    Except (Err × Trainer P O T I) (Trainer P O T I × Rat)
  | 0, s, acc => Except.ok (s, acc)
  | n + 1, s, acc =>
    let b := vl.stream s.validPos
    let s0 := { s with validPos := s.validPos + 1 }
    let loss := s0.mse_penalty * env.mse (env.forward s0.genParams b.content b.label) b.style
    let acc' := acc + loss
    match (if s0.could_wandb then env.validLog loss else Except.ok ()) with
    | Except.error _ => Except.error (Err.sink, s0)
    | Except.ok _ =>
      validLoop env vl n { s0 with valid_loss := s0.valid_loss ++ [loss] } acc'

/-- `Trainer.valid`: one full validation epoch. Runs the batch loop,
divides by `len(validloader)` (raising on zero), then applies the
best-model policy: `if avg_loss <= best_loss: best_loss = avg_loss;
best_params = generator.state_dict()` — the stored dict aliases the
live parameters. -/
def valid {P O T I : Type} (env : Env P O T I) (vl : Loader T)
    (s : Trainer P O T I) :
    Except (Err × Trainer P O T I) (Trainer P O T I × Rat) :=
  match validLoop env vl vl.count s 0 with
  | Except.error e => Except.error e
  | Except.ok (s', acc) =>
    if vl.count = 0 then Except.error (Err.divByZero, s')
    else
      let avg := acc / (vl.count : Rat)
      if avg ≤ s'.best_loss then
        Except.ok ({ s' with best_loss := avg, best_params := BestParams.liveRef }, avg)
      else Except.ok (s', avg)

/-- `Trainer.get_pred_image`: forward pass on the fixed held-out batch's
content and labels (never its target), composed into a grid image. No
state is mutated. -/
def get_pred_image {P O T I : Type} (env : Env P O T I)
    (s : Trainer P O T I) : I :=
  env.toImage (env.forward s.genParams s.test_content_letters s.test_style_labels)

/-- The pickled checkpoint record. Each field is optional so that a file
missing a required key can be expressed; `pickle.dump` of a live trainer
produces every field. The `best_params` entry holds the tensor *values*
at dump time (an `Option` because `best_params` may be `None`). -/
structure TrainerData (P T I : Type) where
  generator_params : Option P
  best_loss : Option Rat
  best_params : Option (Option P)
  test_content_letters : Option T
  test_style_letters : Option T
  test_style_labels : Option T
  test_images : Option (List I)
  train_loss : Option (List Rat)
  valid_loss : Option (List Rat)
deriving DecidableEq

/-- The `trainer_data` dict built in `Trainer.run` and handed to
`pickle.dump`. Pickling serializes tensor values as of dump time, so the
`best_params` entry is the *current* dereferenced value of
`self.best_params` (which, when it is a live `state_dict`, equals the
current generator parameters). -/
def mkTrainerData {P O T I : Type} (s : Trainer P O T I) : TrainerData P T I :=
  { generator_params := some s.genParams
    best_loss := some s.best_loss
    best_params := some (s.best_params.deref s.genParams)
    test_content_letters := some s.test_content_letters
    test_style_letters := some s.test_style_letters
    test_style_labels := some s.test_style_labels
    test_images := some s.test_images
    train_loss := some s.train_loss
    valid_loss := some s.valid_loss }

/-- Sequentially emit a list of scalars/images to a `wandb` log call,
stopping at the first raise (the replay loops in `load_trainer`). -/
def emitAll {A : Type} (log : A → Except Unit Unit) : List A → Except Unit Unit
  | [] => Except.ok ()
  | a :: as => match log a with
    | Except.error e => Except.error e
    | Except.ok _ => emitAll log as

/-- `Trainer.load_trainer`: read the nine required fields of the pickled
record in source order — a dict access of a missing key raises
`KeyError` — overwrite the live generator parameters and the bookkeeping
fields with the stored values (the loaded `best_params` is a fresh,
detached dict), then, when `wandb_log` and `could_wandb` are both set,
replay the whole restored history through `wandb` (any raise
propagates). -/
def load_trainer {P O T I : Type} (env : Env P O T I) (d : TrainerData P T I)
    (wandb_log : Bool) (s : Trainer P O T I) :
    Except LoadErr (Trainer P O T I) :=
  match d.generator_params with
  | none => Except.error (LoadErr.keyError "generator_params")
  | some gp =>
  match d.best_loss with
  | none => Except.error (LoadErr.keyError "best_loss")
  | some bl =>
  match d.best_params with
  | none => Except.error (LoadErr.keyError "best_params")
  | some bp =>
  match d.test_content_letters with
  | none => Except.error (LoadErr.keyError "test_content_letters")
  | some tc =>
  match d.test_style_letters with
  | none => Except.error (LoadErr.keyError "test_style_letters")
  | some tsl =>
  match d.test_style_labels with
  | none => Except.error (LoadErr.keyError "test_style_labels")
  | some tlb =>
  match d.test_images with
  | none => Except.error (LoadErr.keyError "test_images")
  | some ti =>
  match d.train_loss with
  | none => Except.error (LoadErr.keyError "train_loss")
  | some trl =>
  match d.valid_loss with
  | none => Except.error (LoadErr.keyError "valid_loss")
  | some vll =>
  let s' := { s with
    genParams := gp
    best_loss := bl
    best_params := (match bp with
      | none => BestParams.null
      | some p => BestParams.detached p)
    test_content_letters := tc
    test_style_letters := tsl
    test_style_labels := tlb
    test_images := ti
    train_loss := trl
    valid_loss := vll }
  if wandb_log && s.could_wandb then
    match env.configUpdate bl with
    | Except.error _ => Except.error LoadErr.sink
    | Except.ok _ =>
    match emitAll env.trainLog trl with
    | Except.error _ => Except.error LoadErr.sink
    | Except.ok _ =>
    match emitAll env.validLog vll with
    | Except.error _ => Except.error LoadErr.sink
    | Except.ok _ =>
    match emitAll env.imageLog ti with
    | Except.error _ => Except.error LoadErr.sink
    | Except.ok _ => Except.ok s'
  else Except.ok s'

/-- The result of `Trainer.run`: the final trainer state, the list of
per-epoch validation means (the successive return values of
`self.valid()`), the phase trace, the successive checkpoint records
handed to `pickle.dump`, and the final content of the checkpoint file
(each epoch's write opens the same path with `"wb"`, overwriting it). -/
structure RunResult (P O T I : Type) where
  state : Trainer P O T I
  means : List Rat
  phases : List Phase
  writes : List (TrainerData P T I)
  file : Option (TrainerData P T I)

/-- The epoch loop of `Trainer.run`, iterated once per index of
`range(*epochs)`. Per epoch: `self.train()`, `self.valid()`,
`self.get_pred_image()` (logged to `wandb` when enabled — no `try`),
append the image to `test_images`, build `trainer_data`, overwrite the
checkpoint file with it, and finally `wandb.config.update` when
enabled. -/
def runLoop {P O T I : Type} (env : Env P O T I) (tl vl : Loader T) :
    Nat → Trainer P O T I → Option (TrainerData P T I) → List Rat →
    List Phase → List (TrainerData P T I) →
    Except (Err × Trainer P O T I) (RunResult P O T I)
  | 0, s, file, ms, ph, ws => Except.ok ⟨s, ms, ph, ws, file⟩
  | n + 1, s, _file, ms, ph, ws =>
    match train env tl s with
    | Except.error e => Except.error e
    | Except.ok (s1, _tavg, _tr) =>
    match valid env vl s1 with
    | Except.error e => Except.error e
    | Except.ok (s2, vavg) =>
    let img := get_pred_image env s2
    match (if s2.could_wandb then env.imageLog img else Except.ok ()) with
    | Except.error _ => Except.error (Err.sink, s2)
    | Except.ok _ =>
    let s3 := { s2 with test_images := s2.test_images ++ [img] }
    let td := mkTrainerData s3
    match (if s3.could_wandb then env.configUpdate s3.best_loss else Except.ok ()) with
    | Except.error _ => Except.error (Err.sink, s3)
    | Except.ok _ =>
      runLoop env tl vl n s3 (some td) (ms ++ [vavg])
        (ph ++ [Phase.ptrain, Phase.pvalid, Phase.psample, Phase.pcheckpoint])
        (ws ++ [td])

/-- `Trainer.run(epochs, trainer_path)`: iterate the epoch body once per
index of `range(epochs[0], epochs[1])`, starting from whatever the
checkpoint file currently holds (`file0`). -/
def run {P O T I : Type} (env : Env P O T I) (tl vl : Loader T)
    (epochs : Nat × Nat) (s : Trainer P O T I)
    (file0 : Option (TrainerData P T I)) :
    Except (Err × Trainer P O T I) (RunResult P O T I) :=
  runLoop env tl vl (epochs.2 - epochs.1) s file0 [] [] []

/-- All four `wandb` calls of the environment succeed (logging disabled
or a healthy sink). -/
def sinksOk {P O T I : Type} (env : Env P O T I) : Prop :=
  (∀ q, env.trainLog q = Except.ok ()) ∧ (∀ q, env.validLog q = Except.ok ()) ∧
  (∀ i, env.imageLog i = Except.ok ()) ∧ (∀ q, env.configUpdate q = Except.ok ())

/-- Specification-side description of one training epoch's recorded
losses, following the spec's words (§4.1): for each batch, in order,
the recorded loss is `penalty_weight * MSE(model(content, label),
target)` at the parameters current for that batch, and exactly one
optimizer update per batch advances the parameters. -/
def specLosses {P O T I : Type} (env : Env P O T I) (tl : Loader T)
    (penalty : Rat) : Nat → Nat → P → O → List Rat
  | 0, _, _, _ => []
  | n + 1, pos, p, o =>
    let b := tl.stream pos
    let op := env.optStep o p b
    (penalty * env.mse (env.forward p b.content b.label) b.style)
      :: specLosses env tl penalty n (pos + 1) op.2 op.1

/-- The optimizer-state/parameter pair after `n` training batches
starting at stream position `pos` (one optimizer update per batch). -/
def specEvol {P O T I : Type} (env : Env P O T I) (tl : Loader T) :
    Nat → Nat → O × P → O × P
  | 0, _, op => op
  | n + 1, pos, op => specEvol env tl n (pos + 1) (env.optStep op.1 op.2 (tl.stream pos))

/-- Specification-side description of one validation epoch's recorded
losses (§4.2): same loss formula, frozen parameters, no optimizer
update. -/
def specValidLosses {P O T I : Type} (env : Env P O T I) (vl : Loader T)
    (penalty : Rat) (p : P) : Nat → Nat → List Rat
  | 0, _ => []
  | n + 1, pos =>
    let b := vl.stream pos
    (penalty * env.mse (env.forward p b.content b.label) b.style)
      :: specValidLosses env vl penalty p n (pos + 1)

/-- The kind of exception carried by a failed train/valid call. -/
def errKind {P O T I A : Type} :
    Except (Err × Trainer P O T I) A → Option Err
  | Except.error (e, _) => some e
  | Except.ok _ => none

/-- The `train_loss` history of the trainer state at the moment a
train/valid call raised. -/
def errTrainHistory {P O T I A : Type} :
    Except (Err × Trainer P O T I) A → Option (List Rat)
  | Except.error (_, st) => some st.train_loss
  | Except.ok _ => none

/-- The `valid_loss` history of the trainer state at the moment a
train/valid call raised. -/
def errValidHistory {P O T I A : Type} :
    Except (Err × Trainer P O T I) A → Option (List Rat)
  | Except.error (_, st) => some st.valid_loss
  | Except.ok _ => none

/-- A concrete instantiation of the external collaborators for
witnesses: parameters, tensors and images are rationals, the optimizer
is stateless, the forward pass outputs the current parameters, the MSE
of a prediction against a target is the target value, and an optimizer
step increments the parameters by one. Every sink call succeeds. -/
def wEnv : Env Rat Unit Rat Rat :=
  { forward := fun p _ _ => p
    mse := fun _ y => y
    adamInit := fun _ => ()
    optStep := fun _ p _ => ((), p + 1)
    toImage := fun t => t
    trainLog := fun _ => Except.ok ()
    validLog := fun _ => Except.ok ()
    imageLog := fun _ => Except.ok ()
    configUpdate := fun _ => Except.ok () }

/-- A one-batch loader whose single batch has target value 0. -/
def wLoader1 : Loader Rat :=
  { count := 1, stream := fun _ => ⟨0, 0, 0⟩, draw25 := ⟨0, 0, 0⟩ }

/-- An empty loader (reported batch count 0). -/
def wLoader0 : Loader Rat :=
  { count := 0, stream := fun _ => ⟨0, 0, 0⟩, draw25 := ⟨0, 0, 0⟩ }

/-- The `wEnv` collaborators with a `wandb` sink whose every call
raises. -/
def cexEnv : Env Rat Unit Rat Rat :=
  { wEnv with
    trainLog := fun _ => Except.error ()
    validLog := fun _ => Except.error () }

/-- A four-batch loader whose batches produce raw MSE values
0.1, 0.2, 0.1, 0.0 under `wEnv` (the spec's §8 scenario). -/
def scenLoader : Loader Rat :=
  { count := 4
    stream := fun i =>
      ⟨0, if i = 0 then 1/10 else if i = 1 then 1/5 else if i = 2 then 1/10 else 0, 0⟩
    draw25 := ⟨0, 0, 0⟩ }

/-- A one-batch validation loader whose epoch mean under `wEnv` with
penalty 1 is 200000, i.e. larger than the sentinel `1e5`. -/
def bigLoader : Loader Rat :=
  { count := 1, stream := fun _ => ⟨0, 200000, 0⟩, draw25 := ⟨0, 0, 0⟩ }

/-- A freshly initialized trainer over `wEnv` with initial parameters 0,
penalty 1, logging disabled. -/
def c1S0 : Trainer Rat Unit Rat Rat := Trainer.init wEnv 0 1 wLoader1 false

/-- A freshly initialized trainer over `cexEnv` with logging enabled. -/
def cexState : Trainer Rat Unit Rat Rat := Trainer.init cexEnv 0 1 wLoader1 true

/-- A fresh trainer whose validation loader is `bigLoader`. -/
def c4State : Trainer Rat Unit Rat Rat := Trainer.init wEnv 0 1 bigLoader false

/-- A fresh trainer for the §8 four-batch scenario (penalty 5). -/
def scenState : Trainer Rat Unit Rat Rat := Trainer.init wEnv 0 5 scenLoader false

/-- A mid-run trainer state with non-trivial histories and a live
`best_params` reference, used for the checkpoint round trip. -/
def rtState : Trainer Rat Unit Rat Rat :=
  { Trainer.init wEnv 7 1 wLoader1 false with
    best_params := BestParams.liveRef
    best_loss := 3
    train_loss := [1, 2]
    valid_loss := [3]
    test_images := [9] }

/-- The trainer state after the first validation epoch of the C1
scenario: mean 0 recorded as best, `best_params` set to the live
`state_dict` reference. -/
def c1S1 : Trainer Rat Unit Rat Rat :=
  { c1S0 with
    validPos := 1
    valid_loss := [0]
    best_loss := 0
    best_params := BestParams.liveRef }

/-- The trainer state after one further training epoch of the C1
scenario: the optimizer step moved the live parameters from 0 to 1;
`best_params` was never reassigned. -/
def c1S2 : Trainer Rat Unit Rat Rat :=
  { c1S1 with
    trainPos := 1
    train_loss := [0]
    genParams := 1 }

/-- A checkpoint record whose `generator_params` field is missing and
whose other fields are all present. -/
def missingD : TrainerData Rat Rat Rat :=
  { generator_params := none
    best_loss := some 0
    best_params := some none
    test_content_letters := some 0
    test_style_letters := some 0
    test_style_labels := some 0
    test_images := some []
    train_loss := some []
    valid_loss := some [] }

/-- The trainer state after the training epoch of the C4 scenario. -/
def c4T1 : Trainer Rat Unit Rat Rat :=
  { c4State with
    genParams := 1
    trainPos := 1
    train_loss := [0] }

/-- The trainer state after the C4 validation epoch of mean 200000:
above the sentinel, so the best-model fields are untouched. -/
def c4V1 : Trainer Rat Unit Rat Rat :=
  { c4T1 with
    validPos := 1
    valid_loss := [200000] }

/-- The C4 scenario's epoch-end state after appending the rendered
sample. -/
def c4S3 : Trainer Rat Unit Rat Rat :=
  { c4V1 with test_images := [1] }

/-- Closed form of the training batch loop when the sink never raises:
it appends exactly the specification losses, advances the cursor by the
batch count, applies one optimizer update per batch, and emits the
`zero_grad / backward / step` trace once per batch. -/
theorem trainLoop_eq {P O T I : Type} (env : Env P O T I) (tl : Loader T)
    (hlog : ∀ q, env.trainLog q = Except.ok ()) :
    ∀ (n : Nat) (s : Trainer P O T I) (acc : Rat) (tr : List Event),
    trainLoop env tl n s acc tr = Except.ok
      ({ s with
          genParams := (specEvol env tl n s.trainPos (s.optState, s.genParams)).2,
          optState := (specEvol env tl n s.trainPos (s.optState, s.genParams)).1,
          trainPos := s.trainPos + n,
          train_loss := s.train_loss ++
            specLosses env tl s.mse_penalty n s.trainPos s.genParams s.optState },
       acc + (specLosses env tl s.mse_penalty n s.trainPos s.genParams s.optState).sum,
       tr ++ (List.replicate n [Event.zeroGrad, Event.backward, Event.optStep]).flatten) := by
  intro n
  induction n with
  | zero =>
    intro s acc tr
    simp [trainLoop, specEvol, specLosses]
  | succ n ih =>
    intro s acc tr
    simp only [trainLoop, hlog, ite_self]
    rw [ih]
    simp only [specEvol, specLosses, List.sum_cons, List.append_assoc, List.cons_append,
      List.nil_append, List.singleton_append, List.replicate_succ, List.flatten_cons,
      add_assoc, Nat.add_assoc, Nat.one_add]

/-- Closed form of the validation batch loop when the sink never raises:
it appends exactly the specification losses at the frozen parameters and
advances the validation cursor; parameters, optimizer state and the
best-model fields are untouched. -/
theorem validLoop_eq {P O T I : Type} (env : Env P O T I) (vl : Loader T)
    (hlog : ∀ q, env.validLog q = Except.ok ()) :
    ∀ (n : Nat) (s : Trainer P O T I) (acc : Rat),
    validLoop env vl n s acc = Except.ok
      ({ s with
          validPos := s.validPos + n,
          valid_loss := s.valid_loss ++
            specValidLosses env vl s.mse_penalty s.genParams n s.validPos },
       acc + (specValidLosses env vl s.mse_penalty s.genParams n s.validPos).sum) := by
  intro n
  induction n with
  | zero =>
    intro s acc
    simp [validLoop, specValidLosses]
  | succ n ih =>
    intro s acc
    simp only [validLoop, hlog, ite_self]
    rw [ih]
    simp only [specValidLosses, List.sum_cons, List.append_assoc, List.cons_append,
      List.nil_append, List.singleton_append, add_assoc, Nat.add_assoc, Nat.one_add]

/-- One training epoch records one loss per batch. -/
theorem specLosses_length {P O T I : Type} (env : Env P O T I) (tl : Loader T)
    (penalty : Rat) :
    ∀ (n pos : Nat) (p : P) (o : O),
    (specLosses env tl penalty n pos p o).length = n := by
  intro n
  induction n with
  | zero => intro pos p o; simp [specLosses]
  | succ n ih => intro pos p o; simp [specLosses, ih]

/-- One validation epoch records one loss per batch. -/
theorem specValidLosses_length {P O T I : Type} (env : Env P O T I) (vl : Loader T)
    (penalty : Rat) (p : P) :
    ∀ (n pos : Nat),
    (specValidLosses env vl penalty p n pos).length = n := by
  intro n
  induction n with
  | zero => intro pos; simp [specValidLosses]
  | succ n ih => intro pos; simp [specValidLosses, ih]

/-- Closed form of `Trainer.train` on a non-empty loader with a healthy
sink: the recorded losses are appended, the mean of the epoch's batch
losses is returned, and the `zero_grad / backward / step` trace runs
once per batch. -/
theorem train_eq {P O T I : Type} (env : Env P O T I) (tl : Loader T)
    (hlog : ∀ q, env.trainLog q = Except.ok ()) (hc : tl.count ≠ 0)
    (s : Trainer P O T I) :
    train env tl s = Except.ok
      ({ s with
          genParams := (specEvol env tl tl.count s.trainPos (s.optState, s.genParams)).2,
          optState := (specEvol env tl tl.count s.trainPos (s.optState, s.genParams)).1,
          trainPos := s.trainPos + tl.count,
          train_loss := s.train_loss ++
            specLosses env tl s.mse_penalty tl.count s.trainPos s.genParams s.optState },
       (specLosses env tl s.mse_penalty tl.count s.trainPos s.genParams s.optState).sum
         / (tl.count : Rat),
       (List.replicate tl.count [Event.zeroGrad, Event.backward, Event.optStep]).flatten) := by
  unfold train
  rw [trainLoop_eq env tl hlog]
  simp [hc]

/-- Closed form of `Trainer.valid` on a non-empty loader with a healthy
sink: losses are appended at frozen parameters, the epoch mean is
returned, and the best-model policy is applied to the mean. -/
theorem valid_eq {P O T I : Type} (env : Env P O T I) (vl : Loader T)
    (hlog : ∀ q, env.validLog q = Except.ok ()) (hc : vl.count ≠ 0)
    (s : Trainer P O T I) :
    valid env vl s =
      (if (specValidLosses env vl s.mse_penalty s.genParams vl.count s.validPos).sum
            / (vl.count : Rat) ≤ s.best_loss then
        Except.ok
          ({ s with
              validPos := s.validPos + vl.count,
              valid_loss := s.valid_loss ++
                specValidLosses env vl s.mse_penalty s.genParams vl.count s.validPos,
              best_loss := (specValidLosses env vl s.mse_penalty s.genParams vl.count
                s.validPos).sum / (vl.count : Rat),
              best_params := BestParams.liveRef },
           (specValidLosses env vl s.mse_penalty s.genParams vl.count s.validPos).sum
             / (vl.count : Rat))
      else
        Except.ok
          ({ s with
              validPos := s.validPos + vl.count,
              valid_loss := s.valid_loss ++
                specValidLosses env vl s.mse_penalty s.genParams vl.count s.validPos },
           (specValidLosses env vl s.mse_penalty s.genParams vl.count s.validPos).sum
             / (vl.count : Rat))) := by
  unfold valid
  rw [validLoop_eq env vl hlog]
  simp [hc]

/-- Master characterization of the epoch loop of `Trainer.run` under a
healthy sink and non-empty loaders: it succeeds, histories and the
sample-image list grow by exactly the per-epoch amounts, the best loss
is the `min`-fold of the sentinel/incoming best over the per-epoch
validation means, the phase trace is the per-epoch
train/valid/sample/checkpoint pattern, and the checkpoint file ends up
holding the record of the final state (one write per epoch, each
overwriting the last). -/
theorem runLoop_eq {P O T I : Type} (env : Env P O T I) (tl vl : Loader T)
    (hs : sinksOk env) (hct : tl.count ≠ 0) (hcv : vl.count ≠ 0) :
    ∀ (n : Nat) (s : Trainer P O T I) (file : Option (TrainerData P T I))
      (ms : List Rat) (ph : List Phase) (ws : List (TrainerData P T I)),
    ∃ r : RunResult P O T I,
      runLoop env tl vl n s file ms ph ws = Except.ok r ∧
      (∃ t, r.state.train_loss = s.train_loss ++ t ∧ t.length = n * tl.count) ∧
      (∃ u, r.state.valid_loss = s.valid_loss ++ u ∧ u.length = n * vl.count) ∧
      (∃ ims, r.state.test_images = s.test_images ++ ims ∧ ims.length = n) ∧
      (∃ nm, r.means = ms ++ nm ∧ nm.length = n ∧
        r.state.best_loss = nm.foldl min s.best_loss) ∧
      r.phases = ph ++ (List.replicate n
        [Phase.ptrain, Phase.pvalid, Phase.psample, Phase.pcheckpoint]).flatten ∧
      (∃ nw, r.writes = ws ++ nw ∧ nw.length = n) ∧
      r.file = (if n = 0 then file else some (mkTrainerData r.state)) ∧
      (n = 0 → r.state = s) := by
  obtain ⟨h1, h2, h3, h4⟩ := hs
  intro n
  induction n with
  | zero =>
    intro s file ms ph ws
    exact ⟨⟨s, ms, ph, ws, file⟩, rfl, ⟨[], by simp⟩, ⟨[], by simp⟩, ⟨[], by simp⟩,
      ⟨[], by simp⟩, by simp, ⟨[], by simp⟩, by simp, fun _ => rfl⟩
  | succ n ih =>
    intro s file ms ph ws
    simp only [runLoop]
    rw [train_eq env tl h1 hct s]
    simp only []
    rw [valid_eq env vl h2 hcv]
    by_cases hcond :
        (specValidLosses env vl s.mse_penalty
          ((specEvol env tl tl.count s.trainPos (s.optState, s.genParams)).2)
          vl.count s.validPos).sum / (vl.count : Rat) ≤ s.best_loss
    · rw [if_pos hcond]
      simp only [h3, ite_self, h4]
      obtain ⟨r, hr, ⟨t, ht, htl⟩, ⟨u, hu, hul⟩, ⟨ims, him, himl⟩,
        ⟨nm, hnm, hnml, hbest⟩, hph, ⟨nw, hnw, hnwl⟩, hfile, hzero⟩ := ih _ _ _ _ _
      refine ⟨r, hr, ⟨?_, ?_, ?_, ?_, ?_, ?_, ?_, ?_⟩⟩
      · exact ⟨specLosses env tl s.mse_penalty tl.count s.trainPos s.genParams s.optState ++ t,
          by simpa [List.append_assoc] using ht,
          by simp [htl, specLosses_length, Nat.succ_mul, Nat.add_comm]⟩
      · exact ⟨specValidLosses env vl s.mse_penalty
            ((specEvol env tl tl.count s.trainPos (s.optState, s.genParams)).2)
            vl.count s.validPos ++ u,
          by simpa [List.append_assoc] using hu,
          by simp [hul, specValidLosses_length, Nat.succ_mul, Nat.add_comm]⟩
      · exact ⟨_ :: ims, by simpa [List.append_assoc] using him, by simp [himl]⟩
      · refine ⟨_ :: nm, by simpa [List.append_assoc] using hnm, by simp [hnml], ?_⟩
        rw [hbest]
        simp [List.foldl_cons, min_eq_right hcond]
      · rw [hph]
        simp [List.replicate_succ, List.append_assoc]
      · exact ⟨_ :: nw, by simpa [List.append_assoc] using hnw, by simp [hnwl]⟩
      · rcases Nat.eq_zero_or_pos n with hn | hn
        · subst hn
          rw [hfile, if_pos rfl, hzero rfl]
          simp
        · rw [hfile, if_neg (Nat.pos_iff_ne_zero.mp hn)]
          simp
      · intro h
        exact absurd h (Nat.succ_ne_zero n)
    · rw [if_neg hcond]
      simp only [h3, ite_self, h4]
      obtain ⟨r, hr, ⟨t, ht, htl⟩, ⟨u, hu, hul⟩, ⟨ims, him, himl⟩,
        ⟨nm, hnm, hnml, hbest⟩, hph, ⟨nw, hnw, hnwl⟩, hfile, hzero⟩ := ih _ _ _ _ _
      refine ⟨r, hr, ⟨?_, ?_, ?_, ?_, ?_, ?_, ?_, ?_⟩⟩
      · exact ⟨specLosses env tl s.mse_penalty tl.count s.trainPos s.genParams s.optState ++ t,
          by simpa [List.append_assoc] using ht,
          by simp [htl, specLosses_length, Nat.succ_mul, Nat.add_comm]⟩
      · exact ⟨specValidLosses env vl s.mse_penalty
            ((specEvol env tl tl.count s.trainPos (s.optState, s.genParams)).2)
            vl.count s.validPos ++ u,
          by simpa [List.append_assoc] using hu,
          by simp [hul, specValidLosses_length, Nat.succ_mul, Nat.add_comm]⟩
      · exact ⟨_ :: ims, by simpa [List.append_assoc] using him, by simp [himl]⟩
      · refine ⟨_ :: nm, by simpa [List.append_assoc] using hnm, by simp [hnml], ?_⟩
        rw [hbest]
        simp [List.foldl_cons, min_eq_left (not_le.mp hcond).le]
      · rw [hph]
        simp [List.replicate_succ, List.append_assoc]
      · exact ⟨_ :: nw, by simpa [List.append_assoc] using hnw, by simp [hnwl]⟩
      · rcases Nat.eq_zero_or_pos n with hn | hn
        · subst hn
          rw [hfile, if_pos rfl, hzero rfl]
          simp
        · rw [hfile, if_neg (Nat.pos_iff_ne_zero.mp hn)]
          simp
      · intro h
        exact absurd h (Nat.succ_ne_zero n)

/-- Replaying a history through an always-succeeding sink succeeds. -/
theorem emitAll_ok {A : Type} (log : A → Except Unit Unit)
    (h : ∀ a, log a = Except.ok ()) : ∀ l : List A, emitAll log l = Except.ok () := by
  intro l
  induction l with
  | nil => rfl
  | cons a as ih => simp [emitAll, h, ih]

/-- Folding `min` over a list never goes above the starting value. -/
theorem foldl_min_le : ∀ (l : List Rat) (b : Rat), List.foldl min b l ≤ b := by
  intro l
  induction l with
  | nil => intro b; simp
  | cons a as ih =>
    intro b
    calc List.foldl min (min b a) as ≤ min b a := ih (min b a)
    _ ≤ b := min_le_left b a

/-- C10: if the loader reports a batch count of zero, `Trainer.train`
and `Trainer.valid` raise a `ZeroDivisionError` at `avg_loss /= len(...)`
instead of returning a value (the state is otherwise untouched), so a
positive batch count is a precondition of both operations. -/
theorem C10_zero_batches_div_error {P O T I : Type} (env : Env P O T I)
    (tl vl : Loader T) (s : Trainer P O T I) :
    (tl.count = 0 → train env tl s = Except.error (Err.divByZero, s)) ∧
    (vl.count = 0 → valid env vl s = Except.error (Err.divByZero, s)) := by
  constructor
  · intro h
    simp [train, h, trainLoop]
  · intro h
    simp [valid, h, validLoop]

/-- Witness for C10 at a concrete empty loader. -/
theorem C10_zero_batches_div_error_w :
    wLoader0.count = 0 ∧
    train wEnv wLoader0 c1S0 = Except.error (Err.divByZero, c1S0) ∧
    valid wEnv wLoader0 c1S0 = Except.error (Err.divByZero, c1S0) :=
  ⟨rfl, (C10_zero_batches_div_error wEnv wLoader0 wLoader0 c1S0).1 rfl,
    (C10_zero_batches_div_error wEnv wLoader0 wLoader0 c1S0).2 rfl⟩

/-- C2 counterexample: with logging enabled and a `wandb.log` that
raises, `Trainer.train` and `Trainer.valid` propagate the sink error on
the very first batch (there is no `try/except` at the call site), and
the batch's loss is not appended to the corresponding history — the
error-time histories still equal the initial empty ones. -/
theorem C2_sink_failure_propagates_cex :
    errKind (train cexEnv wLoader1 cexState) = some Err.sink ∧
    errTrainHistory (train cexEnv wLoader1 cexState) = some [] ∧
    errKind (valid cexEnv wLoader1 cexState) = some Err.sink ∧
    errValidHistory (valid cexEnv wLoader1 cexState) = some [] := by decide

/-- C2 amended: when logging is enabled and the sink raises, the
exception escapes the train/valid step (aborting it), and the failing
batch's loss is not appended; the history at the moment of the raise is
exactly the incoming one. -/
theorem C2_sink_failure_amended {P O T I : Type} (env : Env P O T I)
    (tl vl : Loader T) (s : Trainer P O T I)
    (hw : s.could_wandb = true) (htn : tl.count ≠ 0) (hvn : vl.count ≠ 0)
    (hft : ∀ q, env.trainLog q = Except.error ())
    (hfv : ∀ q, env.validLog q = Except.error ()) :
    errKind (train env tl s) = some Err.sink ∧
    errTrainHistory (train env tl s) = some s.train_loss ∧
    errKind (valid env vl s) = some Err.sink ∧
    errValidHistory (valid env vl s) = some s.valid_loss := by
  obtain ⟨k, hk⟩ := Nat.exists_eq_succ_of_ne_zero htn
  obtain ⟨j, hj⟩ := Nat.exists_eq_succ_of_ne_zero hvn
  refine ⟨?_, ?_, ?_, ?_⟩ <;>
    simp [train, valid, hk, hj, trainLoop, validLoop, hw, hft, hfv,
      errKind, errTrainHistory, errValidHistory]

/-- Witness for the amended C2 at the concrete raising sink. -/
theorem C2_sink_failure_amended_w :
    cexState.could_wandb = true ∧ wLoader1.count ≠ 0 ∧
    (∀ q, cexEnv.trainLog q = Except.error ()) ∧
    (∀ q, cexEnv.validLog q = Except.error ()) ∧
    (errKind (train cexEnv wLoader1 cexState) = some Err.sink ∧
     errTrainHistory (train cexEnv wLoader1 cexState) = some cexState.train_loss ∧
     errKind (valid cexEnv wLoader1 cexState) = some Err.sink ∧
     errValidHistory (valid cexEnv wLoader1 cexState) = some cexState.valid_loss) :=
  ⟨rfl, by decide, fun q => rfl, fun q => rfl,
    C2_sink_failure_amended cexEnv wLoader1 wLoader1 cexState rfl (by decide) (by decide)
      (fun q => rfl) (fun q => rfl)⟩

/-- C3: one validation epoch computes the epoch mean `m` and applies the
best-model policy: when `m ≤ best_loss` the best loss becomes `m` and
`best_params` becomes the `state_dict` of the current model (so reading
it at that moment yields the current parameters, and on a tie — `m`
equal to the stored best — it is overwritten anew with the most recent
dict); otherwise both fields are left unchanged. -/
theorem C3_best_model_policy {P O T I : Type} (env : Env P O T I)
    (vl : Loader T) (s : Trainer P O T I)
    (hlog : ∀ q, env.validLog q = Except.ok ()) (hc : vl.count ≠ 0) :
    ∃ s' m, valid env vl s = Except.ok (s', m) ∧
      s'.genParams = s.genParams ∧
      (m ≤ s.best_loss →
        s'.best_loss = m ∧ s'.best_params = BestParams.liveRef ∧
        s'.best_params.deref s'.genParams = some s.genParams) ∧
      (¬ m ≤ s.best_loss →
        s'.best_loss = s.best_loss ∧ s'.best_params = s.best_params) := by
  rw [valid_eq env vl hlog hc s]
  by_cases hcond : (specValidLosses env vl s.mse_penalty s.genParams vl.count
      s.validPos).sum / (vl.count : Rat) ≤ s.best_loss
  · rw [if_pos hcond]
    exact ⟨_, _, rfl, rfl, fun _ => ⟨rfl, rfl, rfl⟩, fun h => absurd hcond h⟩
  · rw [if_neg hcond]
    exact ⟨_, _, rfl, rfl, fun h => absurd h hcond, fun _ => ⟨rfl, rfl⟩⟩

/-- Witness for C3 at a concrete one-batch validation epoch. -/
theorem C3_best_model_policy_w :
    (∀ q, wEnv.validLog q = Except.ok ()) ∧ wLoader1.count ≠ 0 ∧
    (∃ s' m, valid wEnv wLoader1 c1S0 = Except.ok (s', m) ∧
      s'.genParams = c1S0.genParams ∧
      (m ≤ c1S0.best_loss →
        s'.best_loss = m ∧ s'.best_params = BestParams.liveRef ∧
        s'.best_params.deref s'.genParams = some c1S0.genParams) ∧
      (¬ m ≤ c1S0.best_loss →
        s'.best_loss = c1S0.best_loss ∧ s'.best_params = c1S0.best_params)) :=
  ⟨fun q => rfl, by decide,
    C3_best_model_policy wEnv wLoader1 c1S0 (fun q => rfl) (by decide)⟩

/-- C7: one training epoch on a non-empty loader with a healthy sink
appends to `train_loss` exactly the specification losses — per batch,
`penalty_weight * MSE(model(content, label), target)` at the parameters
current for that batch — performs exactly one `zero_grad`, one
`backward` and one optimizer step per batch (the emitted trace is the
three-event pattern once per batch, and the final parameters are the
batch count's iterate of single optimizer updates), and returns the
arithmetic mean of the epoch's recorded batch losses. -/
theorem C7_train_epoch {P O T I : Type} (env : Env P O T I) (tl : Loader T)
    (s : Trainer P O T I)
    (hlog : ∀ q, env.trainLog q = Except.ok ()) (hc : tl.count ≠ 0) :
    ∃ s' avg tr, train env tl s = Except.ok (s', avg, tr) ∧
      s'.train_loss = s.train_loss ++
        specLosses env tl s.mse_penalty tl.count s.trainPos s.genParams s.optState ∧
      avg = (specLosses env tl s.mse_penalty tl.count s.trainPos s.genParams
        s.optState).sum / (tl.count : Rat) ∧
      tr = (List.replicate tl.count [Event.zeroGrad, Event.backward, Event.optStep]).flatten ∧
      s'.genParams = (specEvol env tl tl.count s.trainPos (s.optState, s.genParams)).2 := by
  rw [train_eq env tl hlog hc s]
  exact ⟨_, _, _, rfl, rfl, rfl, rfl, rfl⟩

/-- Witness for C7 at the spec's §8 scenario: batch count 4, penalty 5,
raw MSE losses 0.1, 0.2, 0.1, 0.0 — the recorded losses are
0.5, 1.0, 0.5, 0.0 and the epoch mean is 0.5. -/
theorem C7_train_epoch_w :
    (∀ q, wEnv.trainLog q = Except.ok ()) ∧ scenLoader.count ≠ 0 ∧
    (∃ s' avg tr, train wEnv scenLoader scenState = Except.ok (s', avg, tr) ∧
      s'.train_loss = scenState.train_loss ++
        specLosses wEnv scenLoader scenState.mse_penalty scenLoader.count
          scenState.trainPos scenState.genParams scenState.optState ∧
      avg = (specLosses wEnv scenLoader scenState.mse_penalty scenLoader.count
        scenState.trainPos scenState.genParams scenState.optState).sum
          / (scenLoader.count : Rat) ∧
      tr = (List.replicate scenLoader.count
        [Event.zeroGrad, Event.backward, Event.optStep]).flatten ∧
      s'.genParams = (specEvol wEnv scenLoader scenLoader.count scenState.trainPos
        (scenState.optState, scenState.genParams)).2) ∧
    specLosses wEnv scenLoader scenState.mse_penalty scenLoader.count
      scenState.trainPos scenState.genParams scenState.optState
        = [1/2, 1, 1/2, 0] ∧
    (specLosses wEnv scenLoader scenState.mse_penalty scenLoader.count
      scenState.trainPos scenState.genParams scenState.optState).sum
        / (scenLoader.count : Rat) = 1/2 :=
  ⟨fun q => rfl, by decide,
    C7_train_epoch wEnv scenLoader scenState (fun q => rfl) (by decide),
    by norm_num [specLosses, scenLoader, scenState, wEnv, Trainer.init],
    by norm_num [specLosses, scenLoader, scenState, wEnv, Trainer.init]⟩

/-- C9: loading a checkpoint record that lacks any one of the nine
required fields raises a `KeyError` (surfaced to the caller as an
error); no default is substituted. -/
theorem C9_missing_field_fatal {P O T I : Type} (env : Env P O T I)
    (d : TrainerData P T I) (wl : Bool) (s : Trainer P O T I)
    (h : d.generator_params = none ∨ d.best_loss = none ∨ d.best_params = none ∨
      d.test_content_letters = none ∨ d.test_style_letters = none ∨
      d.test_style_labels = none ∨ d.test_images = none ∨
      d.train_loss = none ∨ d.valid_loss = none) :
    ∃ k, load_trainer env d wl s = Except.error (LoadErr.keyError k) := by
  obtain ⟨gp, bl, bp, tc, tsl, tlb, ti, trl, vll⟩ := d
  rcases gp with _ | gp
  · exact ⟨"generator_params", rfl⟩
  rcases bl with _ | bl
  · exact ⟨"best_loss", rfl⟩
  rcases bp with _ | bp
  · exact ⟨"best_params", rfl⟩
  rcases tc with _ | tc
  · exact ⟨"test_content_letters", rfl⟩
  rcases tsl with _ | tsl
  · exact ⟨"test_style_letters", rfl⟩
  rcases tlb with _ | tlb
  · exact ⟨"test_style_labels", rfl⟩
  rcases ti with _ | ti
  · exact ⟨"test_images", rfl⟩
  rcases trl with _ | trl
  · exact ⟨"train_loss", rfl⟩
  rcases vll with _ | vll
  · exact ⟨"valid_loss", rfl⟩
  simp at h

/-- Witness for C9 at a concrete record missing `generator_params`. -/
theorem C9_missing_field_fatal_w :
    missingD.generator_params = none ∧
    (∃ k, load_trainer wEnv missingD false c1S0 = Except.error (LoadErr.keyError k)) :=
  ⟨rfl, C9_missing_field_fatal wEnv missingD false c1S0 (Or.inl rfl)⟩

/-- C1 is violated by the code: `best_params = generator.state_dict()`
stores a dict whose tensors alias the live parameters, and `Adam.step`
updates those parameters in place during later training. Concretely:
after a validation epoch snapshots `best_params` (reading it then yields
the parameters 0, and a forward pass through it outputs 0), one further
training epoch moves the live parameters to 1 — and although
`best_params` itself was never reassigned, reading it now yields 1, and
a forward pass through it outputs 1 ≠ 0, not the output at the moment
the best epoch was recorded. -/
theorem C1_best_params_alias_bug :
    ((valid wEnv wLoader1 c1S0).toOption.map
        (fun r => (r.1.best_params, r.1.best_params.deref r.1.genParams)) =
      some (BestParams.liveRef, some 0)) ∧
    (((valid wEnv wLoader1 c1S0).toOption.bind
        (fun r => (train wEnv wLoader1 r.1).toOption)).map
        (fun x => (x.1.best_params, x.1.best_params.deref x.1.genParams)) =
      some (BestParams.liveRef, some 1)) ∧
    (some (0 : Rat)).map (fun p => wEnv.forward p 0 0)
      ≠ (some (1 : Rat)).map (fun p => wEnv.forward p 0 0) := by
  have hv : valid wEnv wLoader1 c1S0 = Except.ok (c1S1, 0) := by
    rw [valid_eq wEnv wLoader1 (fun q => rfl) (by decide) c1S0]
    norm_num [specValidLosses, wEnv, wLoader1, c1S0, c1S1, Trainer.init]
  have ht : train wEnv wLoader1 c1S1 = Except.ok
      (c1S2, 0, [Event.zeroGrad, Event.backward, Event.optStep]) := by
    rw [train_eq wEnv wLoader1 (fun q => rfl) (by decide)]
    norm_num [specLosses, specEvol, wEnv, wLoader1, c1S0, c1S1, c1S2, Trainer.init]
  refine ⟨?_, ?_, ?_⟩
  · rw [hv]
    rfl
  · rw [hv]
    simp only [Except.toOption]
    rw [Option.some_bind, ht]
    rfl
  · simp [wEnv]

/-- C4 counterexample: a run whose single validation epoch has mean
200000 — above the sentinel `1e5` — leaves `best_loss` at the sentinel
100000, which is *not* the minimum (200000) of the per-epoch validation
means observed so far, refuting the claim as stated. -/
theorem C4_sentinel_min_cex :
    (run wEnv wLoader1 bigLoader (0, 1) c4State none).toOption.map
        (fun r => (r.means, r.state.best_loss)) = some ([200000], 100000) ∧
    (100000 : Rat) ≠ 200000 := by
  have ht : train wEnv wLoader1 c4State = Except.ok
      (c4T1, 0, [Event.zeroGrad, Event.backward, Event.optStep]) := by
    rw [train_eq wEnv wLoader1 (fun q => rfl) (by decide)]
    norm_num [specLosses, specEvol, wEnv, wLoader1, bigLoader, c4State, c4T1, Trainer.init]
  have hv : valid wEnv bigLoader c4T1 = Except.ok (c4V1, 200000) := by
    rw [valid_eq wEnv bigLoader (fun q => rfl) (by decide)]
    norm_num [specValidLosses, wEnv, wLoader1, bigLoader, c4State, c4T1, c4V1, Trainer.init]
  have hrun : run wEnv wLoader1 bigLoader (0, 1) c4State none = Except.ok
      ⟨c4S3, [200000], [Phase.ptrain, Phase.pvalid, Phase.psample, Phase.pcheckpoint],
        [mkTrainerData c4S3], some (mkTrainerData c4S3)⟩ := by
    show runLoop wEnv wLoader1 bigLoader (1 - 0) c4State none [] [] [] = _
    rw [show (1 : Nat) - 0 = 0 + 1 from rfl]
    simp only [runLoop, ht, hv]
    norm_num [get_pred_image, wEnv, wLoader1, bigLoader, c4State, c4T1, c4V1, c4S3,
      Trainer.init, runLoop]
  rw [hrun]
  exact ⟨rfl, by norm_num⟩

/-- C4 amended: starting from a freshly initialized trainer, after any
run `best_loss` equals the `min`-fold of the *sentinel* `1e5` over the
per-epoch validation means observed so far (equivalently, the minimum of
the observed means whenever some mean is at most the sentinel; the
sentinel when none is); in particular it never exceeds the sentinel, and
every single validation epoch leaves `best_loss` no larger than before,
so it is non-increasing across successive validation epochs. -/
theorem C4_best_loss_min_amended {P O T I : Type} (env : Env P O T I)
    (tl vl : Loader T) (e0 e1 : Nat) (p0 : P) (pen : Rat) (vld : Loader T)
    (w : Bool) (file0 : Option (TrainerData P T I))
    (hs : sinksOk env) (hct : tl.count ≠ 0) (hcv : vl.count ≠ 0) :
    (∃ r, run env tl vl (e0, e1) (Trainer.init env p0 pen vld w) file0 = Except.ok r ∧
      r.means.length = e1 - e0 ∧
      r.state.best_loss = r.means.foldl min 100000 ∧
      r.state.best_loss ≤ 100000) ∧
    (∀ (s2 : Trainer P O T I) x, valid env vl s2 = Except.ok x →
      x.1.best_loss ≤ s2.best_loss) := by
  constructor
  · obtain ⟨r, hr, _, _, _, ⟨nm, hnm, hnml, hbest⟩, _, _, _, _⟩ :=
      runLoop_eq env tl vl hs hct hcv (e1 - e0) (Trainer.init env p0 pen vld w) file0 [] [] []
    refine ⟨r, hr, ?_, ?_, ?_⟩
    · rw [hnm]
      simpa using hnml
    · rw [hnm, hbest]
      simp [Trainer.init]
    · rw [hbest]
      exact le_of_le_of_eq (foldl_min_le nm _) (by simp [Trainer.init])
  · intro s2 x hx
    rw [valid_eq env vl hs.2.1 hcv s2] at hx
    split at hx
    · injection hx with h
      subst h
      simpa using (by assumption)
    · injection hx with h
      subst h
      simp

/-- Witness for the amended C4 at a concrete two-epoch run. -/
theorem C4_best_loss_min_amended_w :
    sinksOk wEnv ∧ wLoader1.count ≠ 0 ∧
    ((∃ r, run wEnv wLoader1 wLoader1 (0, 2) (Trainer.init wEnv 0 1 wLoader1 false) none
        = Except.ok r ∧
      r.means.length = 2 - 0 ∧
      r.state.best_loss = r.means.foldl min 100000 ∧
      r.state.best_loss ≤ 100000) ∧
    (∀ (s2 : Trainer Rat Unit Rat Rat) x, valid wEnv wLoader1 s2 = Except.ok x →
      x.1.best_loss ≤ s2.best_loss)) :=
  ⟨⟨fun q => rfl, fun q => rfl, fun i => rfl, fun q => rfl⟩, by decide,
    C4_best_loss_min_amended wEnv wLoader1 wLoader1 0 2 0 1 wLoader1 false none
      ⟨fun q => rfl, fun q => rfl, fun i => rfl, fun q => rfl⟩ (by decide) (by decide)⟩

/-- C5: loading the checkpoint record dumped from any trainer state into
a fresh trainer succeeds and restores the generator parameters, the best
loss, the readable best-parameter values, the fixed evaluation batch,
the sample-image history and both loss histories to their pre-save
values; a training epoch run on the loaded trainer appends the epoch's
batch losses to the restored history rather than resetting it. -/
theorem C5_checkpoint_round_trip {P O T I : Type} (env : Env P O T I)
    (tl : Loader T) (wl : Bool) (s f : Trainer P O T I)
    (hs : sinksOk env) (hct : tl.count ≠ 0) :
    ∃ f', load_trainer env (mkTrainerData s) wl f = Except.ok f' ∧
      f'.genParams = s.genParams ∧
      f'.best_loss = s.best_loss ∧
      f'.best_params.deref f'.genParams = s.best_params.deref s.genParams ∧
      f'.test_content_letters = s.test_content_letters ∧
      f'.test_style_letters = s.test_style_letters ∧
      f'.test_style_labels = s.test_style_labels ∧
      f'.test_images = s.test_images ∧
      f'.train_loss = s.train_loss ∧
      f'.valid_loss = s.valid_loss ∧
      (∃ x, train env tl f' = Except.ok x ∧
        ∃ t, x.1.train_loss = s.train_loss ++ t ∧ t.length = tl.count) := by
  obtain ⟨h1, h2, h3, h4⟩ := hs
  have hload : load_trainer env (mkTrainerData s) wl f = Except.ok
      { f with
        genParams := s.genParams
        best_loss := s.best_loss
        best_params := (match s.best_params.deref s.genParams with
          | none => BestParams.null
          | some p => BestParams.detached p)
        test_content_letters := s.test_content_letters
        test_style_letters := s.test_style_letters
        test_style_labels := s.test_style_labels
        test_images := s.test_images
        train_loss := s.train_loss
        valid_loss := s.valid_loss } := by
    simp only [load_trainer, mkTrainerData]
    rcases Bool.eq_false_or_eq_true (wl && f.could_wandb) with hwb | hwb <;>
      simp [hwb, h4, emitAll_ok _ h1, emitAll_ok _ h2, emitAll_ok _ h3]
  refine ⟨_, hload, rfl, rfl, ?_, rfl, rfl, rfl, rfl, rfl, rfl, ?_⟩
  · cases s.best_params <;> rfl
  · rw [train_eq env tl h1 hct]
    exact ⟨_, rfl, _, rfl, specLosses_length env tl _ _ _ _ _⟩

/-- Witness for C5 at a concrete mid-run state loaded into a fresh
trainer. -/
theorem C5_checkpoint_round_trip_w :
    sinksOk wEnv ∧ wLoader1.count ≠ 0 ∧
    (∃ f', load_trainer wEnv (mkTrainerData rtState) false c1S0 = Except.ok f' ∧
      f'.genParams = rtState.genParams ∧
      f'.best_loss = rtState.best_loss ∧
      f'.best_params.deref f'.genParams = rtState.best_params.deref rtState.genParams ∧
      f'.test_content_letters = rtState.test_content_letters ∧
      f'.test_style_letters = rtState.test_style_letters ∧
      f'.test_style_labels = rtState.test_style_labels ∧
      f'.test_images = rtState.test_images ∧
      f'.train_loss = rtState.train_loss ∧
      f'.valid_loss = rtState.valid_loss ∧
      (∃ x, train wEnv wLoader1 f' = Except.ok x ∧
        ∃ t, x.1.train_loss = rtState.train_loss ++ t ∧ t.length = wLoader1.count)) :=
  ⟨⟨fun q => rfl, fun q => rfl, fun i => rfl, fun q => rfl⟩, by decide,
    C5_checkpoint_round_trip wEnv wLoader1 false rtState c1S0
      ⟨fun q => rfl, fun q => rfl, fun i => rfl, fun q => rfl⟩ (by decide)⟩

/-- C6: a run over `range(e0, e1)` starting from empty histories leaves
`train_loss` with exactly `(e1-e0) * len(trainloader)` entries and
`valid_loss` with exactly `(e1-e0) * len(validloader)` entries; and the
histories are append-only — a run, a training epoch and a validation
epoch each extend the existing history, never removing or overwriting an
entry. -/
theorem C6_history_growth {P O T I : Type} (env : Env P O T I)
    (tl vl : Loader T) (e0 e1 : Nat) (s : Trainer P O T I)
    (file0 : Option (TrainerData P T I))
    (hs : sinksOk env) (hct : tl.count ≠ 0) (hcv : vl.count ≠ 0)
    (h0 : s.train_loss = []) (h1 : s.valid_loss = []) :
    (∃ r, run env tl vl (e0, e1) s file0 = Except.ok r ∧
      r.state.train_loss.length = (e1 - e0) * tl.count ∧
      r.state.valid_loss.length = (e1 - e0) * vl.count) ∧
    (∀ (s2 : Trainer P O T I) file2 (r2 : RunResult P O T I),
      run env tl vl (e0, e1) s2 file2 = Except.ok r2 →
      (∃ t, r2.state.train_loss = s2.train_loss ++ t) ∧
      (∃ u, r2.state.valid_loss = s2.valid_loss ++ u)) ∧
    (∀ (s2 : Trainer P O T I) x, train env tl s2 = Except.ok x →
      ∃ t, x.1.train_loss = s2.train_loss ++ t) ∧
    (∀ (s2 : Trainer P O T I) x, valid env vl s2 = Except.ok x →
      ∃ u, x.1.valid_loss = s2.valid_loss ++ u) := by
  refine ⟨?_, ?_, ?_, ?_⟩
  · obtain ⟨r, hr, ⟨t, ht, htl⟩, ⟨u, hu, hul⟩, _⟩ :=
      runLoop_eq env tl vl hs hct hcv (e1 - e0) s file0 [] [] []
    exact ⟨r, hr, by simp [ht, h0, htl], by simp [hu, h1, hul]⟩
  · intro s2 file2 r2 h
    obtain ⟨r, hr, ⟨t, ht, _⟩, ⟨u, hu, _⟩, _⟩ :=
      runLoop_eq env tl vl hs hct hcv (e1 - e0) s2 file2 [] [] []
    simp only [run] at h
    have heq : r = r2 := by
      have h12 := hr.symm.trans h
      injection h12
    subst heq
    exact ⟨⟨t, ht⟩, ⟨u, hu⟩⟩
  · intro s2 x hx
    rw [train_eq env tl hs.1 hct s2] at hx
    injection hx with h
    subst h
    exact ⟨_, rfl⟩
  · intro s2 x hx
    rw [valid_eq env vl hs.2.1 hcv s2] at hx
    split at hx
    · injection hx with h
      subst h
      exact ⟨_, rfl⟩
    · injection hx with h
      subst h
      exact ⟨_, rfl⟩

/-- Witness for C6 at a concrete two-epoch run from a fresh trainer. -/
theorem C6_history_growth_w :
    sinksOk wEnv ∧ wLoader1.count ≠ 0 ∧ c1S0.train_loss = [] ∧ c1S0.valid_loss = [] ∧
    ((∃ r, run wEnv wLoader1 wLoader1 (0, 2) c1S0 none = Except.ok r ∧
      r.state.train_loss.length = (2 - 0) * wLoader1.count ∧
      r.state.valid_loss.length = (2 - 0) * wLoader1.count) ∧
    (∀ (s2 : Trainer Rat Unit Rat Rat) file2 (r2 : RunResult Rat Unit Rat Rat),
      run wEnv wLoader1 wLoader1 (0, 2) s2 file2 = Except.ok r2 →
      (∃ t, r2.state.train_loss = s2.train_loss ++ t) ∧
      (∃ u, r2.state.valid_loss = s2.valid_loss ++ u)) ∧
    (∀ (s2 : Trainer Rat Unit Rat Rat) x, train wEnv wLoader1 s2 = Except.ok x →
      ∃ t, x.1.train_loss = s2.train_loss ++ t) ∧
    (∀ (s2 : Trainer Rat Unit Rat Rat) x, valid wEnv wLoader1 s2 = Except.ok x →
      ∃ u, x.1.valid_loss = s2.valid_loss ++ u)) :=
  ⟨⟨fun q => rfl, fun q => rfl, fun i => rfl, fun q => rfl⟩, by decide, rfl, rfl,
    C6_history_growth wEnv wLoader1 wLoader1 0 2 c1S0 none
      ⟨fun q => rfl, fun q => rfl, fun i => rfl, fun q => rfl⟩ (by decide) (by decide)
      rfl rfl⟩

/-- C8: a run over `range(e0, e1)` executes, per epoch and in order, the
training pass, the validation pass, the sample render-and-append, and
the checkpoint write; the phase trace is exactly that four-phase pattern
once per epoch, exactly one checkpoint is written per epoch as the
epoch's last step, and the file ends up holding the final epoch-end
record (each write overwrites whatever was at the path, including any
pre-existing `file0`). -/
theorem C8_epoch_sequence {P O T I : Type} (env : Env P O T I)
    (tl vl : Loader T) (e0 e1 : Nat) (s : Trainer P O T I)
    (file0 : Option (TrainerData P T I))
    (hs : sinksOk env) (hct : tl.count ≠ 0) (hcv : vl.count ≠ 0) :
    ∃ r, run env tl vl (e0, e1) s file0 = Except.ok r ∧
      r.phases = (List.replicate (e1 - e0)
        [Phase.ptrain, Phase.pvalid, Phase.psample, Phase.pcheckpoint]).flatten ∧
      r.writes.length = e1 - e0 ∧
      (e1 - e0 ≠ 0 → r.file = some (mkTrainerData r.state)) ∧
      (e1 - e0 = 0 → r.file = file0) := by
  obtain ⟨r, hr, _, _, _, _, hph, ⟨nw, hnw, hnwl⟩, hfile, _⟩ :=
    runLoop_eq env tl vl hs hct hcv (e1 - e0) s file0 [] [] []
  refine ⟨r, hr, by simpa using hph, by simp [hnw, hnwl], ?_, ?_⟩
  · intro h
    rw [hfile, if_neg h]
  · intro h
    rw [hfile, if_pos h]

/-- Witness for C8 at a concrete three-epoch run starting from a
non-empty checkpoint file. -/
theorem C8_epoch_sequence_w :
    sinksOk wEnv ∧ wLoader1.count ≠ 0 ∧
    (∃ r, run wEnv wLoader1 wLoader1 (0, 3) c1S0 (some missingD) = Except.ok r ∧
      r.phases = (List.replicate (3 - 0)
        [Phase.ptrain, Phase.pvalid, Phase.psample, Phase.pcheckpoint]).flatten ∧
      r.writes.length = 3 - 0 ∧
      (3 - 0 ≠ 0 → r.file = some (mkTrainerData r.state)) ∧
      (3 - 0 = 0 → r.file = some missingD)) :=
  ⟨⟨fun q => rfl, fun q => rfl, fun i => rfl, fun q => rfl⟩, by decide,
    C8_epoch_sequence wEnv wLoader1 wLoader1 0 3 c1S0 (some missingD)
      ⟨fun q => rfl, fun q => rfl, fun i => rfl, fun q => rfl⟩ (by decide) (by decide)⟩

end FontGen
